import Mathlib

/-!
# Verification of the trie storage manager (`trie/trieStorageManager.go`)

A shallow embedding of the `trieStorageManager` component: the layered
Get/Put/Remove read-write path, the pruning-blocking counter, the
snapshot/checkpoint request submission paths, and the epoch-triggered
legacy-storage migration.

Conventions:
* byte slices are `List Nat`;
* the Go `uint32` counter `pruningBlockingOps` is an `Int` reduced
  modulo `2^32` on increment, so that the absence of a negative value is a
  provable property of the guard in `ExitPruningBufferingMode` rather than
  an artifact of the ambient type;
* a backing storer's `Get` returns a pair `(value, error)` exactly as in Go;
  the manager's code discards the error component (`val, _ := storer.Get(key)`),
  and the embedding keeps the error component in the model so that this
  discarding is visible;
* closing a store is modelled by a close-counter, so that "closed exactly
  once" is expressible;
* goroutine channels (`leavesChan`, the request channels, the safe closer)
  are modelled by their observable effects: whether the supplied sink was
  closed, whether stats were marked finished, and the list of enqueued
  requests; the nondeterministic `select` between a successful enqueue and
  the shutdown broadcast is resolved by an explicit boolean oracle.
-/

namespace TrieStorageManager

/-- Byte slices. -/
abbrev Bytes := List Nat

/-- Association list backing a key-value store; the first binding for a key
wins, as `put` prepends. -/
abbrev KV := List (Bytes × Bytes)

/-- Lookup in the association list; an absent key yields the empty (nil)
slice, as a Go storer returns `nil` bytes on a miss. -/
def kvLookup (kv : KV) (k : Bytes) : Bytes :=
  match kv with
  | [] => []
  | (k', v) :: rest => if k' = k then v else kvLookup rest k

/-- Overwrite semantics of a storer `Put`: the new binding shadows older ones. -/
def kvPut (kv : KV) (k v : Bytes) : KV := (k, v) :: kv

/-- `Remove` deletes every binding of the key. -/
def kvRemove (kv : KV) (k : Bytes) : KV := kv.filter (fun p => p.1 ≠ k)

/-- A backing store (`common.DBWriteCacher`): its bindings, the error
component its `Get` reports alongside the value (arbitrary, supplied by the
environment), and how many times `Close` has been called on it. -/
structure Storer where
  kv : KV
  getErr : Bytes → Option String
  closeCount : Nat

/-- `storer.Get(key)` returns the value bytes and an error, as in Go. -/
def Storer.get (s : Storer) (k : Bytes) : Bytes × Option String :=
  (kvLookup s.kv k, s.getErr k)

/-- The value component of a storer lookup. -/
def Storer.val (s : Storer) (k : Bytes) : Bytes := (s.get k).1

def Storer.put (s : Storer) (k v : Bytes) : Storer :=
  { s with kv := kvPut s.kv k v }

def Storer.remove (s : Storer) (k : Bytes) : Storer :=
  { s with kv := kvRemove s.kv k }

/-- `storer.Close()`: observable as one more close call. -/
def Storer.close (s : Storer) : Storer :=
  { s with closeCount := s.closeCount + 1 }

/-- Modelled from the spec: the external checkpoint-hash tracker
(`CheckpointHashesHolder`, interface only in the sources) "records which
node hashes are pending inclusion in a checkpoint; supports add/remove by
root". It is a list of `(rootHash, pending hashes)` entries. -/
abbrev CheckpointHashesHolder := List (Bytes × List Bytes)

/-- All hashes the tracker currently holds as pending. -/
def holderPending (h : CheckpointHashesHolder) : List Bytes :=
  match h with
  | [] => []
  | e :: rest => e.2 ++ holderPending rest

/-- Modelled from the spec: `Remove(hash)` drops the hash from pending
tracking in every entry. -/
def holderRemove (h : CheckpointHashesHolder) (hash : Bytes) : CheckpointHashesHolder :=
  h.map (fun e => (e.1, e.2.filter (fun x => x ≠ hash)))

/-- Modelled from the spec: `RemoveCommitted(root)` drops the pending entry
recorded for that root. -/
def holderRemoveCommitted (h : CheckpointHashesHolder) (root : Bytes) : CheckpointHashesHolder :=
  h.filter (fun e => e.1 ≠ root)

/-- A queued snapshot/checkpoint request (`snapshotsQueueEntry`): the root
hash and whether a leaf sink (`leavesChan`) was supplied (non-nil). -/
structure QueueEntry where
  rootHash : Bytes
  hasChan : Bool
deriving DecidableEq

/-- The `trieStorageManager` state. Configuration fields the verified
operations never read (snapshot db config, max snapshots, marshalizer,
hasher, throttler size) are omitted. -/
structure TSM where
  mainStorer : Storer
  checkpointsStorer : Storer
  /-- legacy primary store (`tsm.db`). -/
  db : Storer
  /-- legacy per-generation snapshot stores, oldest first. -/
  snapshots : List Storer
  /-- Go `uint32`; kept as `Int` with explicit wrap on increment. -/
  pruningBlockingOps : Int
  closed : Bool
  flagDisableOldStorage : Bool
  disableOldStorageEpoch : Nat
  oldStorageClosed : Bool
  checkpointHashesHolder : CheckpointHashesHolder
  /-- pending entries of the `snapshotReq` channel. -/
  snapshotReq : List QueueEntry
  /-- pending entries of the `checkpointReq` channel. -/
  checkpointReq : List QueueEntry

/-- Modelled from the spec: the empty-trie sentinel root hash
(`EmptyTrieHash`, defined elsewhere in the repository's trie package as the
32-byte hash of the empty trie). Its exact value is immaterial to the
verified properties. -/
def EmptyTrieHash : Bytes := List.replicate 32 0

/-- `activeDB`, the reserved marker key, as bytes. -/
def activeDBKey : Bytes := [97, 99, 116, 105, 118, 101, 68, 66]

/-- `yes`, the marker value, as bytes. -/
def activeDBVal : Bytes := [121, 101, 115]

/-- The error vocabulary of the read path. -/
inductive TrieErr where
  | ErrKeyNotFound
deriving DecidableEq

/-- The loop `for i := len(snapshots)-1; i >= 0; i--` of
`getFromOtherStorers`, applied to the reversed snapshot list: first
generation whose lookup is non-empty wins; the error each lookup reports is
discarded (`val, _ = snapshots[i].Get(key)`). -/
def getFromSnapshots : List Storer → Bytes → Except TrieErr Bytes
  | [], _ => .error .ErrKeyNotFound
  | s :: rest, k =>
    let v := (s.get k).1
    if v ≠ [] then .ok v else getFromSnapshots rest k

/-- `trieStorageManager.getFromOtherStorers`. -/
def TSM.getFromOtherStorers (tsm : TSM) (k : Bytes) : Except TrieErr Bytes :=
  let v := (tsm.checkpointsStorer.get k).1
  if v ≠ [] then .ok v
  else if tsm.flagDisableOldStorage then .error .ErrKeyNotFound
  else
    let v := (tsm.db.get k).1
    if v ≠ [] then .ok v
    else getFromSnapshots tsm.snapshots.reverse k

/-- `trieStorageManager.Get`: checks `mainStorer`, then the other storers.
Read-only: the type returns no new state, as the source mutates nothing. -/
def TSM.Get (tsm : TSM) (k : Bytes) : Except TrieErr Bytes :=
  let v := (tsm.mainStorer.get k).1
  if v ≠ [] then .ok v
  else tsm.getFromOtherStorers k

/-- `trieStorageManager.Put`: writes only to the main storer. -/
def TSM.Put (tsm : TSM) (k v : Bytes) : TSM :=
  { tsm with mainStorer := tsm.mainStorer.put k v }

/-- `trieStorageManager.Remove`: drops the hash from the checkpoint hashes
holder and removes it from the main storer. -/
def TSM.Remove (tsm : TSM) (hash : Bytes) : TSM :=
  { tsm with
      checkpointHashesHolder := holderRemove tsm.checkpointHashesHolder hash
      mainStorer := tsm.mainStorer.remove hash }

/-- `EnterPruningBufferingMode`: `tsm.pruningBlockingOps++` on a `uint32`. -/
def TSM.EnterPruningBufferingMode (tsm : TSM) : TSM :=
  { tsm with pruningBlockingOps := (tsm.pruningBlockingOps + 1) % (2 ^ 32) }

/-- `ExitPruningBufferingMode`: if the counter is below one, log an error
and return (leaving the counter unchanged); otherwise decrement. -/
def TSM.ExitPruningBufferingMode (tsm : TSM) : TSM :=
  if tsm.pruningBlockingOps < 1 then tsm
  else { tsm with pruningBlockingOps := tsm.pruningBlockingOps - 1 }

/-- `IsPruningBlocked`. -/
def TSM.IsPruningBlocked (tsm : TSM) : Bool :=
  tsm.pruningBlockingOps ≠ 0

/-- The observable outcome of a `TakeSnapshot` / `SetCheckpoint` call: the
state after the call, whether the supplied leaf sink was closed
(`safelyCloseChan` closes it only when non-nil), and whether
`stats.SnapshotFinished()` was called synchronously by this path. -/
structure CallResult where
  tsm : TSM
  chanClosed : Bool
  statsFinished : Bool

/-- `trieStorageManager.TakeSnapshot`. The `closerFired` oracle resolves the
`select` between a successful send on `snapshotReq` and the shutdown
broadcast channel. -/
def TSM.TakeSnapshot (tsm : TSM) (rootHash : Bytes) (hasChan : Bool)
    (closerFired : Bool) : CallResult :=
  if tsm.closed then ⟨tsm, hasChan, true⟩
  else if rootHash = EmptyTrieHash then ⟨tsm, hasChan, true⟩
  else
    let t1 := tsm.EnterPruningBufferingMode
    let t2 := { t1 with
      checkpointHashesHolder := holderRemoveCommitted t1.checkpointHashesHolder rootHash }
    if closerFired then
      ⟨t2.ExitPruningBufferingMode, hasChan, true⟩
    else
      ⟨{ t2 with snapshotReq := t2.snapshotReq ++ [⟨rootHash, hasChan⟩] }, false, false⟩

/-- `trieStorageManager.SetCheckpoint`: as `TakeSnapshot` but without the
`RemoveCommitted` call and targeting the checkpoint queue. -/
def TSM.SetCheckpoint (tsm : TSM) (rootHash : Bytes) (hasChan : Bool)
    (closerFired : Bool) : CallResult :=
  if tsm.closed then ⟨tsm, hasChan, true⟩
  else if rootHash = EmptyTrieHash then ⟨tsm, hasChan, true⟩
  else
    let t1 := tsm.EnterPruningBufferingMode
    if closerFired then
      ⟨t1.ExitPruningBufferingMode, hasChan, true⟩
    else
      ⟨{ t1 with checkpointReq := t1.checkpointReq ++ [⟨rootHash, hasChan⟩] }, false, false⟩

/-- `trieStorageManager.closeOldTrieStorage`: closes the legacy primary
store and every legacy snapshot store, then marks `oldStorageClosed`. -/
def TSM.closeOldTrieStorage (tsm : TSM) : TSM :=
  { tsm with
      db := tsm.db.close
      snapshots := tsm.snapshots.map Storer.close
      oldStorageClosed := true }

/-- `trieStorageManager.EpochConfirmed(epoch)`: `flag.Toggle(epoch >=
disableOldStorageEpoch)` assigns the flag the value of the comparison (the
`atomic.Flag.Toggle` of the vendored library sets the flag to its boolean
argument); the `activeDB` marker is then written to the main storer; if the
flag is set and the old storage is not yet closed, it is closed now. -/
def TSM.EpochConfirmed (tsm : TSM) (epoch : Nat) : TSM :=
  let flag := decide (tsm.disableOldStorageEpoch ≤ epoch)
  let t := { tsm with
      flagDisableOldStorage := flag
      mainStorer := tsm.mainStorer.put activeDBKey activeDBVal }
  if flag ∧ ¬ t.oldStorageClosed then t.closeOldTrieStorage else t

/-- `trieStorageManager.Close`: marks `closed`, closes the legacy storage
when the migration flag is unset, then closes the main and checkpoint
storers (always attempting every step). -/
def TSM.Close (tsm : TSM) : TSM :=
  let t := { tsm with closed := true }
  let t := if ¬ t.flagDisableOldStorage then t.closeOldTrieStorage else t
  { t with
      mainStorer := t.mainStorer.close
      checkpointsStorer := t.checkpointsStorer.close }

/-- Spec-side description of the layered read (§4.1 of the specification):
the first non-empty value wins, and only after exhausting all layers is
"not found" reported. -/
def firstNonEmpty : List Bytes → Except TrieErr Bytes
  | [] => .error .ErrKeyNotFound
  | v :: rest => if v ≠ [] then .ok v else firstNonEmpty rest

/-- The values the layers below the main storer hold for a key, in the
order the spec prescribes: checkpoint store, then — only while the
migration flag is unset — the legacy db and the legacy snapshot
generations from most recent to oldest. -/
def otherLayerVals (tsm : TSM) (k : Bytes) : List Bytes :=
  tsm.checkpointsStorer.val k ::
    (if tsm.flagDisableOldStorage then []
     else tsm.db.val k :: tsm.snapshots.reverse.map (fun s => s.val k))

/-- All layers in the spec's prescribed order, the main store first. -/
def layerVals (tsm : TSM) (k : Bytes) : List Bytes :=
  tsm.mainStorer.val k :: otherLayerVals tsm k

/-- A manager state with every storer's error component erased, to express
that the read path never looks at backend errors. -/
def eraseGetErrors (tsm : TSM) : TSM :=
  { tsm with
      mainStorer := { tsm.mainStorer with getErr := fun _ => none }
      checkpointsStorer := { tsm.checkpointsStorer with getErr := fun _ => none }
      db := { tsm.db with getErr := fun _ => none }
      snapshots := tsm.snapshots.map (fun s => { s with getErr := fun _ => none }) }

/-- `isActiveDb`, as a function of the `(value, error)` pair returned by the
snapshot storage manager's `Get` on the `activeDB` key. When the value is
not `yes`, the source calls `err.Error()` unconditionally; if the error is
nil this is a nil dereference, modelled as `none` (panic). -/
def isActiveDb (getRes : Bytes × Option String) : Option Bool :=
  if getRes.1 = activeDBVal then some true
  else
    match getRes.2 with
    | some _ => some false
    | none => none

/-- The two pruning-buffering operations a caller can issue. -/
inductive PruneOp where
  | enter
  | exit
deriving DecidableEq

/-- Apply one pruning-buffering operation. -/
def applyPruneOp (tsm : TSM) : PruneOp → TSM
  | .enter => tsm.EnterPruningBufferingMode
  | .exit => tsm.ExitPruningBufferingMode

/-- Run a finite sequence of Enter/Exit calls. -/
def runPruneOps (tsm : TSM) (ops : List PruneOp) : TSM :=
  ops.foldl applyPruneOp tsm

/-- The effect of one Enter/Exit on the counter alone. -/
def stepCounter (c : Int) : PruneOp → Int
  | .enter => (c + 1) % (2 ^ 32)
  | .exit => if c < 1 then c else c - 1

/-- Run a finite sequence of `EpochConfirmed` notifications. -/
def runEpochs (tsm : TSM) (es : List Nat) : TSM :=
  es.foldl TSM.EpochConfirmed tsm

/-- A fresh backing store: no bindings, nil errors, never closed. -/
def emptyStorer : Storer := ⟨[], fun _ => none, 0⟩

/-- A fresh manager over empty stores with one legacy snapshot generation
and migration threshold epoch 1, used for concrete evaluations. -/
def tsm1 : TSM where
  mainStorer := emptyStorer
  checkpointsStorer := emptyStorer
  db := emptyStorer
  snapshots := [emptyStorer]
  pruningBlockingOps := 0
  closed := false
  flagDisableOldStorage := false
  disableOldStorageEpoch := 1
  oldStorageClosed := false
  checkpointHashesHolder := []
  snapshotReq := []
  checkpointReq := []

/-! ## Helper lemmas -/

theorem kvLookup_kvPut_self (kv : KV) (k v : Bytes) :
    kvLookup (kvPut kv k v) k = v := by
  simp [kvPut, kvLookup]

theorem kvLookup_kvRemove_self (kv : KV) (k : Bytes) :
    kvLookup (kvRemove kv k) k = [] := by
  induction kv with
  | nil => rfl
  | cons p rest ih =>
    by_cases h : p.1 = k
    · simpa [kvRemove, List.filter, h] using ih
    · simpa [kvRemove, List.filter, h, kvLookup] using ih

theorem getFromSnapshots_eq_firstNonEmpty (l : List Storer) (k : Bytes) :
    getFromSnapshots l k = firstNonEmpty (l.map (fun s => s.val k)) := by
  induction l with
  | nil => rfl
  | cons s rest ih => simp [getFromSnapshots, firstNonEmpty, Storer.val, ih]

theorem getFromOtherStorers_eq_firstNonEmpty (tsm : TSM) (k : Bytes) :
    tsm.getFromOtherStorers k = firstNonEmpty (otherLayerVals tsm k) := by
  unfold TSM.getFromOtherStorers otherLayerVals
  by_cases hc : (tsm.checkpointsStorer.get k).1 = []
  · by_cases hf : tsm.flagDisableOldStorage
    · simp [hc, hf, firstNonEmpty, Storer.val]
    · by_cases hd : (tsm.db.get k).1 = []
      · simp [hc, hf, hd, firstNonEmpty, Storer.val,
          getFromSnapshots_eq_firstNonEmpty]
      · simp [hc, hf, hd, firstNonEmpty, Storer.val]
  · simp [hc, firstNonEmpty, Storer.val]

theorem get_eq_firstNonEmpty (tsm : TSM) (k : Bytes) :
    tsm.Get k = firstNonEmpty (layerVals tsm k) := by
  unfold TSM.Get layerVals
  by_cases hm : (tsm.mainStorer.get k).1 = []
  · simp [hm, firstNonEmpty, Storer.val, getFromOtherStorers_eq_firstNonEmpty]
  · simp [hm, firstNonEmpty, Storer.val]

theorem firstNonEmpty_cases (l : List Bytes) :
    (∃ v, firstNonEmpty l = .ok v ∧ v ≠ []) ∨
      firstNonEmpty l = .error TrieErr.ErrKeyNotFound := by
  induction l with
  | nil => exact Or.inr rfl
  | cons v rest ih =>
    by_cases hv : v = []
    · simpa [firstNonEmpty, hv] using ih
    · exact Or.inl ⟨v, by simp [firstNonEmpty, hv], hv⟩

theorem firstNonEmpty_ok_iff (l : List Bytes) :
    (∃ v, firstNonEmpty l = .ok v) ↔ ∃ v ∈ l, v ≠ [] := by
  induction l with
  | nil => simp [firstNonEmpty]
  | cons v rest ih =>
    by_cases hv : v = []
    · simp [firstNonEmpty, hv, ih]
    · simp [firstNonEmpty, hv]

theorem holderPending_holderRemove (h : CheckpointHashesHolder) (hash : Bytes) :
    hash ∉ holderPending (holderRemove h hash) := by
  induction h with
  | nil => simp [holderRemove, holderPending]
  | cons e rest ih =>
    simp only [holderRemove, List.map, holderPending, List.mem_append]
    rintro (hmem | hmem)
    · simp [List.mem_filter] at hmem
    · exact ih (by simpa [holderRemove] using hmem)

theorem counter_runPruneOps (tsm : TSM) (ops : List PruneOp) :
    (runPruneOps tsm ops).pruningBlockingOps =
      ops.foldl stepCounter tsm.pruningBlockingOps := by
  induction ops generalizing tsm with
  | nil => rfl
  | cons op rest ih =>
    cases op with
    | enter =>
      simpa [runPruneOps, applyPruneOp, TSM.EnterPruningBufferingMode, stepCounter]
        using ih _
    | exit =>
      by_cases hlt : tsm.pruningBlockingOps < 1
      · simpa [runPruneOps, applyPruneOp, TSM.ExitPruningBufferingMode, stepCounter, hlt]
          using ih tsm
      · simpa [runPruneOps, applyPruneOp, TSM.ExitPruningBufferingMode, stepCounter, hlt]
          using ih _

theorem stepCounter_nonneg (c : Int) (op : PruneOp) (hc : 0 ≤ c) :
    0 ≤ stepCounter c op := by
  cases op with
  | enter =>
    simp only [stepCounter]
    have : (0 : Int) < 2 ^ 32 := by norm_num
    exact Int.emod_nonneg _ (by omega)
  | exit =>
    simp only [stepCounter]
    split <;> omega

theorem foldl_stepCounter_nonneg (ops : List PruneOp) (c : Int) (hc : 0 ≤ c) :
    0 ≤ ops.foldl stepCounter c := by
  induction ops generalizing c with
  | nil => exact hc
  | cons op rest ih => exact ih _ (stepCounter_nonneg c op hc)

theorem foldl_enter_counter (n : Nat) :
    ∀ c : Int, 0 ≤ c → c < 2 ^ 32 →
      (List.replicate n PruneOp.enter).foldl stepCounter c = (c + n) % (2 ^ 32) := by
  have h32 : (2 : Int) ^ 32 = 4294967296 := by norm_num
  induction n with
  | zero =>
    intro c hc hlt
    simp only [List.replicate, List.foldl, Nat.cast_zero, add_zero]
    rw [h32] at hlt ⊢
    omega
  | succ m ih =>
    intro c hc hlt
    simp only [List.replicate, List.foldl, stepCounter]
    rw [ih ((c + 1) % (2 ^ 32)) (by rw [h32]; omega) (by rw [h32]; omega)]
    rw [h32] at *
    push_cast
    omega

theorem foldl_exit_counter (n : Nat) :
    ∀ c : Int, 0 ≤ c →
      (List.replicate n PruneOp.exit).foldl stepCounter c = max (c - n) 0 := by
  induction n with
  | zero =>
    intro c hc
    simp
    omega
  | succ m ih =>
    intro c hc
    simp only [List.replicate, List.foldl, stepCounter]
    by_cases hlt : c < 1
    · rw [if_pos hlt, ih c hc]
      push_cast
      omega
    · rw [if_neg hlt, ih (c - 1) (by omega)]
      push_cast
      omega

theorem epochConfirmed_flag (tsm : TSM) (x : Nat) :
    (tsm.EpochConfirmed x).flagDisableOldStorage
      = decide (tsm.disableOldStorageEpoch ≤ x) := by
  simp only [TSM.EpochConfirmed]
  split <;> rfl

theorem epochConfirmed_thr (tsm : TSM) (x : Nat) :
    (tsm.EpochConfirmed x).disableOldStorageEpoch = tsm.disableOldStorageEpoch := by
  simp only [TSM.EpochConfirmed]
  split <;> rfl

theorem runEpochs_flag_stays (es : List Nat) :
    ∀ s : TSM, (∀ x ∈ es, s.disableOldStorageEpoch ≤ x) →
      s.flagDisableOldStorage = true →
      (runEpochs s es).flagDisableOldStorage = true := by
  induction es with
  | nil => intro s _ hs; exact hs
  | cons x rest ih =>
    intro s hall hs
    have hx : s.disableOldStorageEpoch ≤ x := hall x (List.mem_cons_self x rest)
    show (runEpochs (s.EpochConfirmed x) rest).flagDisableOldStorage = true
    apply ih
    · intro y hy
      rw [epochConfirmed_thr]
      exact hall y (List.mem_cons_of_mem x hy)
    · rw [epochConfirmed_flag]
      simpa using hx

/-! ## The claims -/

/-- C1 (counterexample): the `legacyDisabled` flag is not monotonic over
arbitrary `EpochConfirmed` sequences. With threshold 1, confirming epoch 1
sets the flag, and a subsequent confirmation of epoch 0 recomputes it as
`0 >= 1` and reverts it to false. -/
theorem legacyDisabled_reverts_counterexample :
    ((tsm1.EpochConfirmed 1).flagDisableOldStorage = true) ∧
    (((tsm1.EpochConfirmed 1).EpochConfirmed 0).flagDisableOldStorage = false) := by
  constructor <;> rfl

/-- C1 (amended): once an `EpochConfirmed(e)` call has set `legacyDisabled`,
the flag stays true across every further sequence of `EpochConfirmed` calls
whose epochs are all at least `e` — in particular across the non-decreasing
epoch sequences an epoch notifier delivers. (Each call recomputes the flag
as `epoch >= threshold`, so a call with a lower epoch can revert it.) -/
theorem legacyDisabled_monotonic_for_nondecreasing (tsm : TSM) (e : Nat)
    (es : List Nat) (hmono : ∀ x ∈ es, e ≤ x)
    (hset : (tsm.EpochConfirmed e).flagDisableOldStorage = true) :
    (runEpochs (tsm.EpochConfirmed e) es).flagDisableOldStorage = true := by
  have hthr : tsm.disableOldStorageEpoch ≤ e := by
    have := hset
    rw [epochConfirmed_flag] at this
    simpa using this
  apply runEpochs_flag_stays
  · intro x hx
    rw [epochConfirmed_thr]
    exact le_trans hthr (hmono x hx)
  · exact hset

/-- C1 witness: the amended statement at a fresh manager with threshold 1,
triggering epoch 1, and subsequent epochs 2, 3. -/
theorem legacyDisabled_monotonic_witness :
    (∀ x ∈ [2, 3], 1 ≤ x) ∧
    (runEpochs (tsm1.EpochConfirmed 1) [2, 3]).flagDisableOldStorage = true :=
  ⟨by decide, legacyDisabled_monotonic_for_nondecreasing tsm1 1 [2, 3] (by decide) rfl⟩

/-- C2: for every manager state, a `TakeSnapshot` or `SetCheckpoint` call on
the empty-trie sentinel root hash returns the state unchanged (so the
pruning-blocking counter is untouched and neither request queue grows),
closes the supplied leaf sink exactly when one was supplied, and marks the
stats collector finished. -/
theorem empty_root_finishes_synchronously (tsm : TSM) (hasChan closerFired : Bool) :
    tsm.TakeSnapshot EmptyTrieHash hasChan closerFired = ⟨tsm, hasChan, true⟩ ∧
    tsm.SetCheckpoint EmptyTrieHash hasChan closerFired = ⟨tsm, hasChan, true⟩ := by
  constructor <;> simp [TSM.TakeSnapshot, TSM.SetCheckpoint]

/-- C3: for every call made when `closed` is true, `TakeSnapshot` and
`SetCheckpoint` return the state unchanged (no store touched, no request
enqueued, the pruning-blocking counter untouched), close the supplied leaf
sink exactly when one was supplied, and mark the stats collector
finished. -/
theorem closed_manager_finishes_synchronously (tsm : TSM) (rootHash : Bytes)
    (hasChan closerFired : Bool) (hc : tsm.closed = true) :
    tsm.TakeSnapshot rootHash hasChan closerFired = ⟨tsm, hasChan, true⟩ ∧
    tsm.SetCheckpoint rootHash hasChan closerFired = ⟨tsm, hasChan, true⟩ := by
  constructor <;> simp [TSM.TakeSnapshot, TSM.SetCheckpoint, hc]

/-- C3 witness: a manager that has gone through `Close` finishes a
`TakeSnapshot` on a non-empty root synchronously. -/
theorem closed_manager_finishes_synchronously_witness :
    (TSM.Close tsm1).closed = true ∧
    (TSM.Close tsm1).TakeSnapshot [1, 2] true false = ⟨TSM.Close tsm1, true, true⟩ :=
  ⟨rfl, (closed_manager_finishes_synchronously (TSM.Close tsm1) [1, 2] true false rfl).1⟩

/-- C4: starting from a counter at zero, no Enter/Exit sequence ever drives
`pruningBlockingOps` negative; `n` Enters followed by `n` Exits leave
`IsPruningBlocked` false; and an Exit issued at counter zero leaves the
manager unchanged (the guard returns before decrementing). -/
theorem pruning_counter_safety (tsm : TSM) (ops : List PruneOp) (n : Nat)
    (h0 : tsm.pruningBlockingOps = 0) :
    (∀ m, 0 ≤ (runPruneOps tsm (ops.take m)).pruningBlockingOps) ∧
    (runPruneOps tsm
        (List.replicate n PruneOp.enter ++ List.replicate n PruneOp.exit)).IsPruningBlocked
      = false ∧
    tsm.ExitPruningBufferingMode = tsm := by
  refine ⟨?_, ?_, ?_⟩
  · intro m
    rw [counter_runPruneOps, h0]
    exact foldl_stepCounter_nonneg _ _ le_rfl
  · have hcnt : (runPruneOps tsm
        (List.replicate n PruneOp.enter ++ List.replicate n PruneOp.exit)).pruningBlockingOps
        = 0 := by
      rw [counter_runPruneOps, h0, List.foldl_append]
      rw [foldl_enter_counter n 0 le_rfl (by norm_num)]
      rw [foldl_exit_counter n _ (Int.emod_nonneg _ (by norm_num))]
      have h32 : (2 : Int) ^ 32 = 4294967296 := by norm_num
      rw [h32]
      omega
    simp [TSM.IsPruningBlocked, hcnt]
  · simp [TSM.ExitPruningBufferingMode, h0]

/-- C4 witness: the fresh manager has counter zero, and two Enters followed
by two Exits leave pruning unblocked. -/
theorem pruning_counter_safety_witness :
    tsm1.pruningBlockingOps = 0 ∧
    (runPruneOps tsm1
        (List.replicate 2 PruneOp.enter ++ List.replicate 2 PruneOp.exit)).IsPruningBlocked
      = false :=
  ⟨rfl, (pruning_counter_safety tsm1 [] 2 rfl).2.1⟩

/-- C5: `Get` equals the first non-empty value among the layers consulted in
the spec's fixed order — main store, checkpoint store, then (only while the
migration flag is unset) the legacy db followed by the legacy snapshot
generations from most recent to oldest — and reports not-found only after
that whole list is exhausted. The embedding of `Get` returns no new state:
the source mutates nothing on the read path. -/
theorem get_layered_order (tsm : TSM) (k : Bytes) :
    tsm.Get k = firstNonEmpty (layerVals tsm k) :=
  get_eq_firstNonEmpty tsm k

/-- C6 (counterexample): `Put(k, v)` followed by `Get(k)` does not return
`v` when `v` is the empty slice — the read path treats an empty value as a
miss, so on a fresh manager the lookup falls through every layer and
reports not-found instead. -/
theorem put_get_empty_value_counterexample :
    (tsm1.Put [5] []).Get [5] = Except.error TrieErr.ErrKeyNotFound ∧
    ¬ (tsm1.Put [5] []).Get [5] = Except.ok ([] : Bytes) := by
  refine ⟨rfl, fun h => ?_⟩
  rw [show (tsm1.Put [5] []).Get [5] = Except.error TrieErr.ErrKeyNotFound from rfl] at h
  exact Except.noConfusion h

/-- C6 (amended): for every key `k` and non-empty value `v`, `Put(k, v)`
writes only to the main store — checkpoint and legacy layers are
unchanged — and a subsequent `Get(k)` returns `v`. -/
theorem put_get_roundtrip_nonempty (tsm : TSM) (k v : Bytes) (hv : v ≠ []) :
    ((tsm.Put k v).Get k = .ok v) ∧
    ((tsm.Put k v).checkpointsStorer = tsm.checkpointsStorer) ∧
    ((tsm.Put k v).db = tsm.db) ∧
    ((tsm.Put k v).snapshots = tsm.snapshots) := by
  refine ⟨?_, rfl, rfl, rfl⟩
  simp [TSM.Get, TSM.Put, Storer.put, Storer.get, Storer.val, kvPut, kvLookup, hv]

/-- C6 witness: the amended round-trip at a concrete non-empty value. -/
theorem put_get_roundtrip_witness :
    ([7] : Bytes) ≠ [] ∧ (tsm1.Put [3] [7]).Get [3] = .ok [7] :=
  ⟨by decide, (put_get_roundtrip_nonempty tsm1 [3] [7] (by decide)).1⟩

/-- C7: from a state where the legacy storage is still open, the first
`EpochConfirmed` at or past the threshold sets the migration flag, marks
`oldStorageClosed`, and closes the legacy db and every legacy snapshot
store exactly once; a later `EpochConfirmed` with a higher epoch leaves the
legacy db and snapshot stores untouched (no second close). -/
theorem legacy_storage_closed_once (tsm : TSM) (e1 e2 : Nat)
    (hopen : tsm.oldStorageClosed = false)
    (hthr : tsm.disableOldStorageEpoch ≤ e1) (hlt : e1 < e2) :
    ((tsm.EpochConfirmed e1).flagDisableOldStorage = true) ∧
    ((tsm.EpochConfirmed e1).oldStorageClosed = true) ∧
    ((tsm.EpochConfirmed e1).db.closeCount = tsm.db.closeCount + 1) ∧
    ((tsm.EpochConfirmed e1).snapshots = tsm.snapshots.map Storer.close) ∧
    (((tsm.EpochConfirmed e1).EpochConfirmed e2).flagDisableOldStorage = true) ∧
    (((tsm.EpochConfirmed e1).EpochConfirmed e2).oldStorageClosed = true) ∧
    (((tsm.EpochConfirmed e1).EpochConfirmed e2).db = (tsm.EpochConfirmed e1).db) ∧
    (((tsm.EpochConfirmed e1).EpochConfirmed e2).snapshots
        = (tsm.EpochConfirmed e1).snapshots) := by
  have h2 : tsm.disableOldStorageEpoch ≤ e2 := by omega
  simp [TSM.EpochConfirmed, TSM.closeOldTrieStorage, hopen, hthr, h2, Storer.close]

/-- C7 witness: threshold 1, confirming epoch 1 then epoch 2 on a fresh
manager closes the legacy db once and only once. -/
theorem legacy_storage_closed_once_witness :
    tsm1.oldStorageClosed = false ∧ tsm1.disableOldStorageEpoch ≤ 1 ∧ (1 : Nat) < 2 ∧
    (tsm1.EpochConfirmed 1).db.closeCount = 1 ∧
    ((tsm1.EpochConfirmed 1).EpochConfirmed 2).db = (tsm1.EpochConfirmed 1).db :=
  ⟨rfl, by decide, by decide,
    (legacy_storage_closed_once tsm1 1 2 rfl (by decide) (by decide)).2.2.1,
    (legacy_storage_closed_once tsm1 1 2 rfl (by decide) (by decide)).2.2.2.2.2.2.1⟩

/-- C8: `Remove(hash)` empties the main-store binding for the hash and
drops it from the tracker's pending hashes, leaves the checkpoint store and
every legacy store unchanged, and a subsequent `Get(hash)` is exactly the
fall-through lookup over the checkpoint and (while active) legacy layers:
it succeeds precisely when one of those layers holds a non-empty value for
the hash, and reports not-found otherwise. -/
theorem remove_frame_and_fallthrough (tsm : TSM) (hash : Bytes) :
    ((tsm.Remove hash).mainStorer.val hash = []) ∧
    (hash ∉ holderPending (tsm.Remove hash).checkpointHashesHolder) ∧
    ((tsm.Remove hash).checkpointsStorer = tsm.checkpointsStorer) ∧
    ((tsm.Remove hash).db = tsm.db) ∧
    ((tsm.Remove hash).snapshots = tsm.snapshots) ∧
    ((tsm.Remove hash).Get hash = firstNonEmpty (otherLayerVals tsm hash)) ∧
    ((∃ v, (tsm.Remove hash).Get hash = .ok v) ↔
      ∃ v ∈ otherLayerVals tsm hash, v ≠ []) := by
  have hval : (tsm.Remove hash).mainStorer.val hash = [] := by
    simp [TSM.Remove, Storer.val, Storer.get, Storer.remove, kvLookup_kvRemove_self]
  have hget : (tsm.Remove hash).Get hash = firstNonEmpty (otherLayerVals tsm hash) := by
    rw [get_eq_firstNonEmpty]
    show firstNonEmpty ((tsm.Remove hash).mainStorer.val hash :: otherLayerVals tsm hash)
      = firstNonEmpty (otherLayerVals tsm hash)
    rw [hval]
    simp [firstNonEmpty]
  refine ⟨hval, holderPending_holderRemove _ _, rfl, rfl, rfl, hget, ?_⟩
  rw [hget]
  exact firstNonEmpty_ok_iff _

/-- C9: `isActiveDb` is safe only under the precondition that a read of the
`activeDB` key returning a value other than `yes` also returns a non-nil
error: under that precondition it always yields a boolean, but on a backend
state where the key is bound to another value (here `no`) with a nil error,
it dereferences the nil error (`err.Error()`) and panics (modelled as
`none`). -/
theorem isActiveDb_nil_error_unsafe :
    (∀ res : Bytes × Option String,
        (res.1 ≠ activeDBVal → res.2.isSome = true) → (isActiveDb res).isSome = true) ∧
    isActiveDb ([110, 111], none) = none := by
  constructor
  · rintro ⟨val, err⟩ hpre
    by_cases hv : val = activeDBVal
    · simp [isActiveDb, hv]
    · have := hpre hv
      match err with
      | some e => simp [isActiveDb, hv]
      | none => simp at this
  · rfl

/-- C9 witness: under the precondition, the check on a well-formed active
generation succeeds without panicking. -/
theorem isActiveDb_nil_error_unsafe_witness :
    (isActiveDb (activeDBVal, none)).isSome = true :=
  isActiveDb_nil_error_unsafe.1 (activeDBVal, none) (fun h => absurd rfl h)

/-- C10: the read path never consults the error component any backend
returns — `Get` is invariant under erasing every storer's errors — and for
every key it returns either a non-empty value (with no error) or the
distinct not-found error, so a backend failure is indistinguishable from an
absent key. -/
theorem get_never_propagates_backend_errors (tsm : TSM) (k : Bytes) :
    ((eraseGetErrors tsm).Get k = tsm.Get k) ∧
    ((∃ v, tsm.Get k = .ok v ∧ v ≠ []) ∨
      tsm.Get k = .error TrieErr.ErrKeyNotFound) := by
  constructor
  · rw [get_eq_firstNonEmpty, get_eq_firstNonEmpty]
    have hlayers : layerVals (eraseGetErrors tsm) k = layerVals tsm k := by
      simp [layerVals, otherLayerVals, eraseGetErrors, Storer.val, Storer.get,
        List.map_map, Function.comp_def]
    rw [hlayers]
  · rw [get_eq_firstNonEmpty]
    exact firstNonEmpty_cases _

end TrieStorageManager
